import Mathlib

/-!
Verification of the Pipeline Pilot plan-generation core.

The development shallowly embeds the decision logic of the repository:
the fallback plan synthesizer `buildFallbackPlan` and the request
handler `POST` (both from the API route in the repository), the
client-side submit handler's validation-error mapping (from the page
component), and — modelled from the specification because the library
modules `lib/schemas` and `lib/types` are not part of the published
sources — the request validator `leadRequestSchema.safeParse`, the plan
serializer, and the plan parser/recoverer `tryParsePlan`.
-/

/-! ## Data model -/

/-- A validated campaign brief, mirroring the request schema's fields. -/
structure CampaignBrief where
  businessName : String
  industry : String
  productDescription : String
  targetCustomer : String
  uniqueValue : String
  goals : List String
  channels : List String
  tone : String
  offer : String
  notes : Option String
  budgetLevel : String
  timeframe : String
deriving DecidableEq, Repr

/-- Campaign summary section of a plan. -/
structure CampaignSummary where
  northStar : String
  successMetrics : List String
  positioningTheme : String
deriving DecidableEq, Repr

/-- Ideal customer profile section of a plan. -/
structure IdealCustomerProfile where
  companyTraits : List String
  buyerPersona : List String
  painPoints : List String
deriving DecidableEq, Repr

/-- One messaging pillar of a plan. -/
structure MessagingPillar where
  title : String
  angle : String
  proofPoints : List String
deriving DecidableEq, Repr

/-- One channel play of a plan. -/
structure ChannelPlay where
  channel : String
  objective : String
  play : String
  cadence : String
  sampleCopy : String
deriving DecidableEq, Repr

/-- One automation flow of a plan. -/
structure AutomationFlow where
  name : String
  trigger : String
  steps : List String
deriving DecidableEq, Repr

/-- One experiment of a plan. -/
structure Experiment where
  hypothesis : String
  experiment : String
  metric : String
deriving DecidableEq, Repr

/-- A full campaign plan, the system's output artifact. -/
structure CampaignPlan where
  campaignSummary : CampaignSummary
  idealCustomerProfile : IdealCustomerProfile
  messagingPillars : List MessagingPillar
  channelStrategy : List ChannelPlay
  automationWorkflow : List AutomationFlow
  experiments : List Experiment
  nextSteps : List String
deriving DecidableEq, Repr

/-! ## Fallback plan synthesizer (from the API route source) -/

/-- The fallback plan synthesizer, translated field by field from
`buildFallbackPlan` in the API route: every string is the source's
template with the brief's fields interpolated. -/
def buildFallbackPlan (payload : CampaignBrief) : CampaignPlan :=
  { campaignSummary :=
      { northStar := "Generate qualified pipeline for " ++ payload.businessName ++
          " within " ++ payload.timeframe ++ "."
        successMetrics :=
          [ "Meetings booked per week"
          , "Reply rate %"
          , "Pipeline value influenced" ]
        positioningTheme := "Position as the " ++ payload.uniqueValue.toLower }
    idealCustomerProfile :=
      { companyTraits :=
          [ "Operates in " ++ payload.industry
          , "Mid-market to enterprise accounts"
          , "Teams with urgent need for modernization" ]
        buyerPersona :=
          [ "Economic buyer: VP / Director level stakeholder"
          , "Technical champion: hands-on practitioner"
          , "Influencer: adjacent department peer" ]
        painPoints :=
          [ "Manual workflows causing wasted spend"
          , "Pressure to show ROI quickly"
          , "Need to differentiate in competitive market" ] }
    messagingPillars :=
      [ { title := "Value driver"
          angle := "Highlight how " ++ payload.productDescription.toLower ++
            " unlocks measurable ROI."
          proofPoints :=
            [ "Quantify time or cost savings"
            , "Reference a key customer win"
            , "Mention implementation support" ] }
      , { title := "Risk reducer"
          angle := "Show how the offer reduces risk compared to current status quo."
          proofPoints :=
            [ "Share guarantee or SLA"
            , "Provide social proof snippet"
            , "Emphasize ease-of-adoption" ] } ]
    channelStrategy := payload.channels.map (fun channel =>
      { channel := channel
        objective := "Drive " ++ payload.offer.toLower ++ " conversions."
        play := "Run a " ++ payload.budgetLevel ++
          " budget program combining intent data and manual research."
        cadence := if payload.timeframe = "2 weeks" then "3x weekly" else "Weekly"
        sampleCopy := "Hi \x7b\x7bfirst_name\x7d\x7d, " ++ payload.offer })
    automationWorkflow :=
      [ { name := "Prompt follow-up sequence"
          trigger := "Form submission or positive reply"
          steps :=
            [ "Send tailored follow-up within 4 hours"
            , "Share relevant asset on day 3"
            , "Escalate to call invite on day 5 if no response" ] } ]
    experiments :=
      [ { hypothesis := "Referencing a mutual connection increases cold outreach replies."
          experiment := "Test LinkedIn InMail templates with social proof block."
          metric := "Positive reply rate" }
      , { hypothesis := "Offering a quick teardown boosts meeting bookings."
          experiment := "Cold email variant offering 15-min audit."
          metric := "Meetings booked" } ]
    nextSteps :=
      [ "Finalize lead list with top 200 accounts"
      , "Draft channel-specific outreach scripts"
      , "Enable experiment tracking dashboard"
      , "Launch in waves and optimize weekly" ] }

/-! ## JSON values and the request validator -/

/-- A JSON value, the shape of an unvalidated request body. -/
inductive Json where
  | null
  | bool (b : Bool)
  | num (n : Int)
  | str (s : String)
  | arr (elems : List Json)
  | obj (fields : List (String × Json))
deriving Repr

/-- Field lookup on a JSON object; `none` on other JSON values. -/
def Json.getField (j : Json) (key : String) : Option Json :=
  match j with
  | .obj fields => (fields.find? (fun kv => kv.1 = key)).map (fun kv => kv.2)
  | _ => none

/-- One validation issue: the offending field and a human-readable message. -/
structure ZodIssue where
  field : String
  message : String
deriving DecidableEq, Repr

/-- Whitespace trimming at both ends of a string. -/
def trimString (s : String) : String :=
  String.mk (((s.data.dropWhile Char.isWhitespace).reverse.dropWhile
    Char.isWhitespace).reverse)

/-- Modelled from the spec: `lib/schemas` is not among the published
sources; a required, trimmed, non-empty string field per section 4.1. -/
def checkString (j : Json) (key : String) : Except ZodIssue String :=
  match j.getField key with
  | some (.str s) => if trimString s = "" then .error ⟨key, key ++ " must not be empty"⟩ else .ok s
  | some _ => .error ⟨key, key ++ " must be a string"⟩
  | none => .error ⟨key, "Required"⟩

/-- Modelled from the spec: a required field drawn from a closed enumeration. -/
def checkEnum (j : Json) (key : String) (options : List String) : Except ZodIssue String :=
  match j.getField key with
  | some (.str s) =>
      if s ∈ options then .ok s else .error ⟨key, "Invalid enum value for " ++ key⟩
  | some _ => .error ⟨key, key ++ " must be a string"⟩
  | none => .error ⟨key, "Required"⟩

/-- String projection of a JSON value. -/
def Json.asString : Json → Option String
  | .str s => some s
  | _ => none

/-- Modelled from the spec: a required array of enumeration members with
minimum length 1. -/
def checkEnumArray (j : Json) (key : String) (options : List String) :
    Except ZodIssue (List String) :=
  match j.getField key with
  | some (.arr elems) =>
    match elems.mapM Json.asString with
    | some strs =>
      if strs = [] then .error ⟨key, "Select at least one " ++ key ++ " option"⟩
      else if strs.all (fun s => s ∈ options) then .ok strs
      else .error ⟨key, "Invalid enum value for " ++ key⟩
    | none => .error ⟨key, key ++ " must be an array of strings"⟩
  | some _ => .error ⟨key, key ++ " must be an array"⟩
  | none => .error ⟨key, "Required"⟩

/-- Modelled from the spec: an optional string field. -/
def checkOptionalString (j : Json) (key : String) : Except ZodIssue (Option String) :=
  match j.getField key with
  | some (.str s) => .ok (some s)
  | some _ => .error ⟨key, key ++ " must be a string"⟩
  | none => .ok none

/-- Modelled from the spec: the goal enumeration is closed; its attested
members are the ones visible in the page component's default form state. -/
def goalOptions : List String :=
  ["Book discovery calls", "Increase demo requests"]

/-- Modelled from the spec: the channel enumeration is closed; its attested
members are the ones visible in the page component's default form state. -/
def channelOptions : List String :=
  ["Cold email", "LinkedIn outreach", "Webinars"]

/-- Modelled from the spec: the tone enumeration is closed; its attested
member is the one visible in the page component's default form state. -/
def toneOptions : List String :=
  ["Data-driven"]

/-- The budget-level enumeration, from the spec and the page component. -/
def budgetLevelOptions : List String :=
  ["lean", "balanced", "aggressive"]

/-- The timeframe enumeration, from the spec and the page component. -/
def timeframeOptions : List String :=
  ["2 weeks", "30 days", "90 days"]

/-- One applicative step of validation: apply an already-accumulated
partial result to one field check, collecting issues in field order. -/
def vStep {α β : Type} (f : Except (List ZodIssue) (α → β)) (x : Except ZodIssue α) :
    Except (List ZodIssue) β :=
  match f, x with
  | .ok g, .ok a => .ok (g a)
  | .ok _, .error e => .error [e]
  | .error es, .ok _ => .error es
  | .error es, .error e => .error (es ++ [e])

/-- Modelled from the spec: `leadRequestSchema.safeParse` of `lib/schemas`,
checking every CampaignBrief field in declaration order and collecting
all issues, or returning the validated brief. -/
def leadRequestSafeParse (j : Json) : Except (List ZodIssue) CampaignBrief :=
  vStep (vStep (vStep (vStep (vStep (vStep (vStep (vStep (vStep (vStep (vStep (vStep
    (.ok CampaignBrief.mk)
    (checkString j "businessName"))
    (checkString j "industry"))
    (checkString j "productDescription"))
    (checkString j "targetCustomer"))
    (checkString j "uniqueValue"))
    (checkEnumArray j "goals" goalOptions))
    (checkEnumArray j "channels" channelOptions))
    (checkEnum j "tone" toneOptions))
    (checkString j "offer"))
    (checkOptionalString j "notes"))
    (checkEnum j "budgetLevel" budgetLevelOptions))
    (checkEnum j "timeframe" timeframeOptions)

/-- Grouping of issues by field, preserving the first-occurrence order of
fields and the order of messages within a field: the `fieldErrors` part of
the zod `flatten()` result used by both the route and the page component. -/
def flattenIssues : List ZodIssue → List (String × List String)
  | [] => []
  | i :: rest =>
    (i.field, i.message :: (rest.filter (fun k => k.field = i.field)).map ZodIssue.message) ::
      flattenIssues (rest.filter (fun k => k.field ≠ i.field))
termination_by l => l.length
decreasing_by
  simp only [List.length_cons]
  exact Nat.lt_succ_of_le (List.length_filter_le _ _)

/-- Outcome of the client submit handler's validation stage. -/
inductive SubmitOutcome where
  | validationErrors (fieldErrors : List (String × String))
  | proceed (payload : CampaignBrief)
deriving DecidableEq, Repr

/-- The page component's reduction of flattened field errors to one
message per field: for each field with a non-empty message list, keep the
first message. -/
def firstPerField (fieldErrors : List (String × List String)) : List (String × String) :=
  fieldErrors.filterMap (fun fm =>
    match fm.2 with
    | [] => none
    | m :: _ => some (fm.1, m))

/-- The validation stage of `handleSubmit` in the page component: parse
the form; on failure build the single-message-per-field error map, on
success proceed with the validated payload. -/
def handleSubmit (form : Json) : SubmitOutcome :=
  match leadRequestSafeParse form with
  | .error issues => .validationErrors (firstPerField (flattenIssues issues))
  | .ok payload => .proceed payload

/-! ## Plan serialization (modelled from the spec) -/

/-- The opening-brace character. -/
def lbrace : Char := Char.ofNat 123

/-- The closing-brace character. -/
def rbrace : Char := Char.ofNat 125

/-- Lowercase hexadecimal digit for a value below 16. -/
def hexDigitChar (n : Nat) : Char :=
  if n < 10 then Char.ofNat (48 + n) else Char.ofNat (87 + n)

/-- JSON string escaping of one character: quote, backslash and control
characters are escaped (with the conventional short escapes and a
4-digit hexadecimal escape otherwise); every other character is emitted
verbatim. -/
def escChar (c : Char) : List Char :=
  if c = '"' then ['\\', '"']
  else if c = '\\' then ['\\', '\\']
  else if c = Char.ofNat 8 then ['\\', 'b']
  else if c = '\t' then ['\\', 't']
  else if c = '\n' then ['\\', 'n']
  else if c = Char.ofNat 12 then ['\\', 'f']
  else if c = '\r' then ['\\', 'r']
  else if c.toNat < 32 then
    ['\\', 'u', '0', '0', hexDigitChar (c.toNat / 16), hexDigitChar (c.toNat % 16)]
  else [c]

/-- Serialization of a JSON string literal, quotes included. -/
def printJStr (s : String) : List Char :=
  '"' :: (s.data.flatMap escChar ++ ['"'])

/-- A serialized object key followed by a colon. -/
def keyColon (k : String) : List Char := printJStr k ++ [':']

/-- Serialized tail of a JSON array: a comma before each further element. -/
def printElemsTail {α : Type} (pr : α → List Char) (xs : List α) : List Char :=
  xs.flatMap (fun x => ',' :: pr x)

/-- Serialization of a JSON array from an element serializer. -/
def printArr {α : Type} (pr : α → List Char) : List α → List Char
  | [] => ['[', ']']
  | x :: xs => '[' :: (pr x ++ (printElemsTail pr xs ++ [']']))

/-- Serialization of an array of strings. -/
def printStrArr : List String → List Char := printArr printJStr

/-- Serialization of a campaign summary, field order as in the source. -/
def printCampaignSummary (cs : CampaignSummary) : List Char :=
  lbrace :: (keyColon "northStar" ++ (printJStr cs.northStar ++ (',' ::
    (keyColon "successMetrics" ++ (printStrArr cs.successMetrics ++ (',' ::
    (keyColon "positioningTheme" ++ (printJStr cs.positioningTheme ++ [rbrace]))))))))

/-- Serialization of an ideal customer profile. -/
def printIdealCustomerProfile (icp : IdealCustomerProfile) : List Char :=
  lbrace :: (keyColon "companyTraits" ++ (printStrArr icp.companyTraits ++ (',' ::
    (keyColon "buyerPersona" ++ (printStrArr icp.buyerPersona ++ (',' ::
    (keyColon "painPoints" ++ (printStrArr icp.painPoints ++ [rbrace]))))))))

/-- Serialization of a messaging pillar. -/
def printMessagingPillar (mp : MessagingPillar) : List Char :=
  lbrace :: (keyColon "title" ++ (printJStr mp.title ++ (',' ::
    (keyColon "angle" ++ (printJStr mp.angle ++ (',' ::
    (keyColon "proofPoints" ++ (printStrArr mp.proofPoints ++ [rbrace]))))))))

/-- Serialization of a channel play. -/
def printChannelPlay (cp : ChannelPlay) : List Char :=
  lbrace :: (keyColon "channel" ++ (printJStr cp.channel ++ (',' ::
    (keyColon "objective" ++ (printJStr cp.objective ++ (',' ::
    (keyColon "play" ++ (printJStr cp.play ++ (',' ::
    (keyColon "cadence" ++ (printJStr cp.cadence ++ (',' ::
    (keyColon "sampleCopy" ++ (printJStr cp.sampleCopy ++ [rbrace]))))))))))))))

/-- Serialization of an automation flow. -/
def printAutomationFlow (af : AutomationFlow) : List Char :=
  lbrace :: (keyColon "name" ++ (printJStr af.name ++ (',' ::
    (keyColon "trigger" ++ (printJStr af.trigger ++ (',' ::
    (keyColon "steps" ++ (printStrArr af.steps ++ [rbrace]))))))))

/-- Serialization of an experiment. -/
def printExperiment (e : Experiment) : List Char :=
  lbrace :: (keyColon "hypothesis" ++ (printJStr e.hypothesis ++ (',' ::
    (keyColon "experiment" ++ (printJStr e.experiment ++ (',' ::
    (keyColon "metric" ++ (printJStr e.metric ++ [rbrace]))))))))

/-- Serialization of a full campaign plan, field order as in the source. -/
def printPlan (p : CampaignPlan) : List Char :=
  lbrace :: (keyColon "campaignSummary" ++ (printCampaignSummary p.campaignSummary ++ (',' ::
    (keyColon "idealCustomerProfile" ++
      (printIdealCustomerProfile p.idealCustomerProfile ++ (',' ::
    (keyColon "messagingPillars" ++
      (printArr printMessagingPillar p.messagingPillars ++ (',' ::
    (keyColon "channelStrategy" ++ (printArr printChannelPlay p.channelStrategy ++ (',' ::
    (keyColon "automationWorkflow" ++
      (printArr printAutomationFlow p.automationWorkflow ++ (',' ::
    (keyColon "experiments" ++ (printArr printExperiment p.experiments ++ (',' ::
    (keyColon "nextSteps" ++ (printStrArr p.nextSteps ++ [rbrace]))))))))))))))))))))

/-- Modelled from the spec: the exact JSON serialization of a campaign
plan (the serialized-plan text the parser round-trips on). -/
def serializePlan (p : CampaignPlan) : String :=
  String.mk (printPlan p)

/-! ## Plan parsing (modelled from the spec) -/

/-- Consume one expected character. -/
def expectC (c : Char) : List Char → Option (List Char)
  | [] => none
  | x :: rest => if x = c then some rest else none

/-- Consume an expected literal character sequence. -/
def expectL : List Char → List Char → Option (List Char)
  | [], l => some l
  | _ :: _, [] => none
  | p :: ps, c :: cs => if c = p then expectL ps cs else none

/-- Value of a hexadecimal digit character. -/
def parseHexDigit (c : Char) : Option Nat :=
  if 48 ≤ c.toNat ∧ c.toNat ≤ 57 then some (c.toNat - 48)
  else if 97 ≤ c.toNat ∧ c.toNat ≤ 102 then some (c.toNat - 87)
  else if 65 ≤ c.toNat ∧ c.toNat ≤ 70 then some (c.toNat - 55)
  else none

/-- Parse the body of a JSON string literal after its opening quote,
decoding the standard escapes, up to and including the closing quote. -/
def parseStrBody : List Char → Option (List Char × List Char)
  | [] => none
  | c :: rest =>
    if c = '"' then some ([], rest)
    else if c = '\\' then
      match rest with
      | [] => none
      | e :: rest2 =>
        if e = '"' then (parseStrBody rest2).map (fun p => ('"' :: p.1, p.2))
        else if e = '\\' then (parseStrBody rest2).map (fun p => ('\\' :: p.1, p.2))
        else if e = '/' then (parseStrBody rest2).map (fun p => ('/' :: p.1, p.2))
        else if e = 'b' then (parseStrBody rest2).map (fun p => (Char.ofNat 8 :: p.1, p.2))
        else if e = 'f' then (parseStrBody rest2).map (fun p => (Char.ofNat 12 :: p.1, p.2))
        else if e = 'n' then (parseStrBody rest2).map (fun p => ('\n' :: p.1, p.2))
        else if e = 'r' then (parseStrBody rest2).map (fun p => ('\r' :: p.1, p.2))
        else if e = 't' then (parseStrBody rest2).map (fun p => ('\t' :: p.1, p.2))
        else if e = 'u' then
          match rest2 with
          | h1 :: h2 :: h3 :: h4 :: rest3 =>
            match parseHexDigit h1, parseHexDigit h2, parseHexDigit h3, parseHexDigit h4 with
            | some d1, some d2, some d3, some d4 =>
              let n := ((d1 * 16 + d2) * 16 + d3) * 16 + d4
              if n < 55296 ∨ 57344 ≤ n then
                (parseStrBody rest3).map (fun p => (Char.ofNat n :: p.1, p.2))
              else none
            | _, _, _, _ => none
          | _ => none
        else none
    else (parseStrBody rest).map (fun p => (c :: p.1, p.2))

/-- Parse a JSON string literal, quotes included. -/
def parseJStr (l : List Char) : Option (String × List Char) :=
  match l with
  | [] => none
  | c :: rest =>
    if c = '"' then (parseStrBody rest).map (fun p => (String.mk p.1, p.2))
    else none

/-- Parse the tail of a JSON array after its first element: either the
closing bracket, or fuel-bounded repetitions of a comma and an element. -/
def parseArrTail {α : Type} (pe : List Char → Option (α × List Char)) :
    Nat → List Char → Option (List α × List Char)
  | _, [] => none
  | fuel, c :: rest =>
    if c = ']' then some ([], rest)
    else if c = ',' then
      match fuel with
      | 0 => none
      | fuel' + 1 =>
        match pe rest with
        | none => none
        | some (x, r) =>
          match parseArrTail pe fuel' r with
          | none => none
          | some (xs, r2) => some (x :: xs, r2)
    else none

/-- Parse a JSON array with an explicit fuel bound on the element count. -/
def parseArrCore {α : Type} (pe : List Char → Option (α × List Char)) (fuel : Nat)
    (l : List Char) : Option (List α × List Char) :=
  match l with
  | [] => none
  | c :: rest =>
    if c = '[' then
      match rest with
      | [] => none
      | c2 :: rest2 =>
        if c2 = ']' then some ([], rest2)
        else
          match pe (c2 :: rest2) with
          | none => none
          | some (x, r) =>
            match parseArrTail pe fuel r with
            | none => none
            | some (xs, r2) => some (x :: xs, r2)
    else none

/-- Parse a JSON array; the input length bounds the element count. -/
def parseArr {α : Type} (pe : List Char → Option (α × List Char)) (l : List Char) :
    Option (List α × List Char) :=
  parseArrCore pe l.length l

/-- Parse an array of strings. -/
def parseStrArr (l : List Char) : Option (List String × List Char) :=
  parseArr parseJStr l

/-- Consume an expected serialized object key and its colon. -/
def expectKey (k : String) (l : List Char) : Option (List Char) :=
  expectL (keyColon k) l

/-- Structured decode of a campaign summary object. -/
def parseCampaignSummary (l : List Char) : Option (CampaignSummary × List Char) :=
  match expectC lbrace l with
  | none => none
  | some l =>
  match expectKey "northStar" l with
  | none => none
  | some l =>
  match parseJStr l with
  | none => none
  | some (northStar, l) =>
  match expectC ',' l with
  | none => none
  | some l =>
  match expectKey "successMetrics" l with
  | none => none
  | some l =>
  match parseStrArr l with
  | none => none
  | some (successMetrics, l) =>
  match expectC ',' l with
  | none => none
  | some l =>
  match expectKey "positioningTheme" l with
  | none => none
  | some l =>
  match parseJStr l with
  | none => none
  | some (positioningTheme, l) =>
  match expectC rbrace l with
  | none => none
  | some l => some (⟨northStar, successMetrics, positioningTheme⟩, l)

/-- Structured decode of an ideal customer profile object. -/
def parseIdealCustomerProfile (l : List Char) :
    Option (IdealCustomerProfile × List Char) :=
  match expectC lbrace l with
  | none => none
  | some l =>
  match expectKey "companyTraits" l with
  | none => none
  | some l =>
  match parseStrArr l with
  | none => none
  | some (companyTraits, l) =>
  match expectC ',' l with
  | none => none
  | some l =>
  match expectKey "buyerPersona" l with
  | none => none
  | some l =>
  match parseStrArr l with
  | none => none
  | some (buyerPersona, l) =>
  match expectC ',' l with
  | none => none
  | some l =>
  match expectKey "painPoints" l with
  | none => none
  | some l =>
  match parseStrArr l with
  | none => none
  | some (painPoints, l) =>
  match expectC rbrace l with
  | none => none
  | some l => some (⟨companyTraits, buyerPersona, painPoints⟩, l)

/-- Structured decode of a messaging pillar object. -/
def parseMessagingPillar (l : List Char) : Option (MessagingPillar × List Char) :=
  match expectC lbrace l with
  | none => none
  | some l =>
  match expectKey "title" l with
  | none => none
  | some l =>
  match parseJStr l with
  | none => none
  | some (title, l) =>
  match expectC ',' l with
  | none => none
  | some l =>
  match expectKey "angle" l with
  | none => none
  | some l =>
  match parseJStr l with
  | none => none
  | some (angle, l) =>
  match expectC ',' l with
  | none => none
  | some l =>
  match expectKey "proofPoints" l with
  | none => none
  | some l =>
  match parseStrArr l with
  | none => none
  | some (proofPoints, l) =>
  match expectC rbrace l with
  | none => none
  | some l => some (⟨title, angle, proofPoints⟩, l)

/-- Structured decode of a channel play object. -/
def parseChannelPlay (l : List Char) : Option (ChannelPlay × List Char) :=
  match expectC lbrace l with
  | none => none
  | some l =>
  match expectKey "channel" l with
  | none => none
  | some l =>
  match parseJStr l with
  | none => none
  | some (channel, l) =>
  match expectC ',' l with
  | none => none
  | some l =>
  match expectKey "objective" l with
  | none => none
  | some l =>
  match parseJStr l with
  | none => none
  | some (objective, l) =>
  match expectC ',' l with
  | none => none
  | some l =>
  match expectKey "play" l with
  | none => none
  | some l =>
  match parseJStr l with
  | none => none
  | some (play, l) =>
  match expectC ',' l with
  | none => none
  | some l =>
  match expectKey "cadence" l with
  | none => none
  | some l =>
  match parseJStr l with
  | none => none
  | some (cadence, l) =>
  match expectC ',' l with
  | none => none
  | some l =>
  match expectKey "sampleCopy" l with
  | none => none
  | some l =>
  match parseJStr l with
  | none => none
  | some (sampleCopy, l) =>
  match expectC rbrace l with
  | none => none
  | some l => some (⟨channel, objective, play, cadence, sampleCopy⟩, l)

/-- Structured decode of an automation flow object. -/
def parseAutomationFlow (l : List Char) : Option (AutomationFlow × List Char) :=
  match expectC lbrace l with
  | none => none
  | some l =>
  match expectKey "name" l with
  | none => none
  | some l =>
  match parseJStr l with
  | none => none
  | some (name, l) =>
  match expectC ',' l with
  | none => none
  | some l =>
  match expectKey "trigger" l with
  | none => none
  | some l =>
  match parseJStr l with
  | none => none
  | some (trigger, l) =>
  match expectC ',' l with
  | none => none
  | some l =>
  match expectKey "steps" l with
  | none => none
  | some l =>
  match parseStrArr l with
  | none => none
  | some (steps, l) =>
  match expectC rbrace l with
  | none => none
  | some l => some (⟨name, trigger, steps⟩, l)

/-- Structured decode of an experiment object. -/
def parseExperiment (l : List Char) : Option (Experiment × List Char) :=
  match expectC lbrace l with
  | none => none
  | some l =>
  match expectKey "hypothesis" l with
  | none => none
  | some l =>
  match parseJStr l with
  | none => none
  | some (hypothesis, l) =>
  match expectC ',' l with
  | none => none
  | some l =>
  match expectKey "experiment" l with
  | none => none
  | some l =>
  match parseJStr l with
  | none => none
  | some (experiment, l) =>
  match expectC ',' l with
  | none => none
  | some l =>
  match expectKey "metric" l with
  | none => none
  | some l =>
  match parseJStr l with
  | none => none
  | some (metric, l) =>
  match expectC rbrace l with
  | none => none
  | some l => some (⟨hypothesis, experiment, metric⟩, l)

/-- Structured decode of a full campaign plan object. -/
def parsePlanChars (l : List Char) : Option (CampaignPlan × List Char) :=
  match expectC lbrace l with
  | none => none
  | some l =>
  match expectKey "campaignSummary" l with
  | none => none
  | some l =>
  match parseCampaignSummary l with
  | none => none
  | some (campaignSummary, l) =>
  match expectC ',' l with
  | none => none
  | some l =>
  match expectKey "idealCustomerProfile" l with
  | none => none
  | some l =>
  match parseIdealCustomerProfile l with
  | none => none
  | some (idealCustomerProfile, l) =>
  match expectC ',' l with
  | none => none
  | some l =>
  match expectKey "messagingPillars" l with
  | none => none
  | some l =>
  match parseArr parseMessagingPillar l with
  | none => none
  | some (messagingPillars, l) =>
  match expectC ',' l with
  | none => none
  | some l =>
  match expectKey "channelStrategy" l with
  | none => none
  | some l =>
  match parseArr parseChannelPlay l with
  | none => none
  | some (channelStrategy, l) =>
  match expectC ',' l with
  | none => none
  | some l =>
  match expectKey "automationWorkflow" l with
  | none => none
  | some l =>
  match parseArr parseAutomationFlow l with
  | none => none
  | some (automationWorkflow, l) =>
  match expectC ',' l with
  | none => none
  | some l =>
  match expectKey "experiments" l with
  | none => none
  | some l =>
  match parseArr parseExperiment l with
  | none => none
  | some (experiments, l) =>
  match expectC ',' l with
  | none => none
  | some l =>
  match expectKey "nextSteps" l with
  | none => none
  | some l =>
  match parseStrArr l with
  | none => none
  | some (nextSteps, l) =>
  match expectC rbrace l with
  | none => none
  | some l => some (⟨campaignSummary, idealCustomerProfile, messagingPillars,
      channelStrategy, automationWorkflow, experiments, nextSteps⟩, l)

/-- Modelled from the spec: the direct structured decode of a full text
against the CampaignPlan shape; the whole text must be consumed. -/
def parsePlanString (t : String) : Option CampaignPlan :=
  match parsePlanChars t.data with
  | some (p, []) => some p
  | _ => none

/-- Index of the last closing brace of a text, if any. -/
def lastRbraceIdx (l : List Char) : Option Nat :=
  match l.reverse.findIdx? (fun c => c = rbrace) with
  | none => none
  | some k => some (l.length - 1 - k)

/-- Modelled from the spec: the substring from the first opening brace to
the last closing brace, the recovery heuristic's extraction span. -/
def braceSlice (l : List Char) : Option (List Char) :=
  match l.findIdx? (fun c => c = lbrace) with
  | none => none
  | some i =>
    match lastRbraceIdx l with
    | none => none
    | some j => if i < j then some ((l.drop i).take (j + 1 - i)) else none

/-- Result record of the plan parser/recoverer. -/
structure ParseOutcome where
  plan : Option CampaignPlan
  raw : Option String
  message : Option String
deriving DecidableEq, Repr

/-- The recovery notice of the parser. -/
def recoveredNotice : String :=
  "Recovered a structured plan from the model output."

/-- The failure notice of the parser. -/
def unparseableNotice : String :=
  "model output could not be parsed as a structured plan"

/-- Modelled from the spec: `tryParsePlan` of `lib/types` — direct decode
first, then brace-extraction recovery, otherwise surface the raw text. -/
def tryParsePlan (text : String) : ParseOutcome :=
  match parsePlanString text with
  | some p => ⟨some p, none, none⟩
  | none =>
    match braceSlice text.data with
    | some sub =>
      match parsePlanString (String.mk sub) with
      | some p => ⟨some p, none, some recoveredNotice⟩
      | none => ⟨none, some text, some unparseableNotice⟩
    | none => ⟨none, some text, some unparseableNotice⟩

/-! ## The request handler (from the API route source) -/

/-- An exception raised by the model call (or client construction):
only its text is modelled. -/
structure LlmFailure where
  message : String
deriving DecidableEq, Repr

/-- The response body shapes the route can produce, by their JSON keys. -/
inductive ResponseBody where
  | invalidInput (error : String) (fieldErrors : List (String × List String))
  | fallbackPayload (plan : CampaignPlan) (raw : Option String) (warning : String)
  | modelPayload (plan : Option CampaignPlan) (raw : Option String) (notice : Option String)
deriving DecidableEq, Repr

/-- An HTTP response: a status code and a JSON body. -/
structure HttpResponse where
  status : Nat
  body : ResponseBody
deriving DecidableEq, Repr

/-- The 400 error text of the route. -/
def invalidInputError : String := "Invalid input"

/-- The warning the route sends when no API key is configured. -/
def noKeyWarning : String :=
  "OPENAI_API_KEY is not configured. Responding with a heuristic fallback plan."

/-- The warning the route sends when the model call fails. -/
def modelFailWarning : String :=
  "Failed to generate plan with OpenAI. Provided a fallback strategy instead."

/-- The route's behavior on a validated payload: no key means an
immediate fallback response; otherwise the model call's outcome decides
between the caught-error fallback response and the parse-and-respond
path. -/
def handleValidPayload (payload : CampaignBrief) (apiKey : Option String)
    (llm : Except LlmFailure String) : HttpResponse :=
  match apiKey with
  | none =>
    ⟨200, .fallbackPayload (buildFallbackPlan payload) none noKeyWarning⟩
  | some _ =>
    match llm with
    | .error _ =>
      ⟨200, .fallbackPayload (buildFallbackPlan payload) none modelFailWarning⟩
    | .ok responseText =>
      let r := tryParsePlan responseText
      ⟨200, .modelPayload r.plan (match r.plan with
        | some _ => none
        | none => r.raw) r.message⟩

/-- The POST handler of the API route: read the JSON body (a failure
there propagates out of the handler, since the source awaits
`request.json()` outside any try block), validate it, and dispatch.
The body-read outcome, the configured credential and the model call's
outcome are the handler's external inputs. -/
def POST (body : Except String Json) (apiKey : Option String)
    (llm : Except LlmFailure String) : Except String HttpResponse :=
  match body with
  | .error e => .error e
  | .ok raw =>
    match leadRequestSafeParse raw with
    | .error issues =>
      .ok ⟨400, .invalidInput invalidInputError (flattenIssues issues)⟩
    | .ok payload => .ok (handleValidPayload payload apiKey llm)

/-! ## Sample inputs for concrete evaluations -/

/-- A concrete valid brief. -/
def sampleBrief : CampaignBrief :=
  { businessName := "Lumos Analytics"
    industry := "B2B SaaS"
    productDescription := "A RevOps intelligence platform"
    targetCustomer := "Heads of Demand Gen"
    uniqueValue := "Real-time attribution"
    goals := ["Book discovery calls"]
    channels := ["Cold email", "Webinars"]
    tone := "Data-driven"
    offer := "Free audit"
    notes := some "Partnered with Gong"
    budgetLevel := "balanced"
    timeframe := "30 days" }

/-- The same brief with different goals, target customer and notes. -/
def sampleBriefAlt : CampaignBrief :=
  { sampleBrief with
    goals := ["Increase demo requests"]
    targetCustomer := "Growth leads at Series B companies"
    notes := none }

/-- The JSON request body corresponding to the concrete valid brief. -/
def sampleRequestJson : Json :=
  .obj
    [ ("businessName", .str "Lumos Analytics")
    , ("industry", .str "B2B SaaS")
    , ("productDescription", .str "A RevOps intelligence platform")
    , ("targetCustomer", .str "Heads of Demand Gen")
    , ("uniqueValue", .str "Real-time attribution")
    , ("goals", .arr [.str "Book discovery calls"])
    , ("channels", .arr [.str "Cold email", .str "Webinars"])
    , ("tone", .str "Data-driven")
    , ("offer", .str "Free audit")
    , ("notes", .str "Partnered with Gong")
    , ("budgetLevel", .str "balanced")
    , ("timeframe", .str "30 days") ]

/-- A model reply that is not a plan. -/
def failingModelText : String := "I cannot help with that."

/-! ## Claims about the fallback synthesizer -/

/-- Claim C1: for every brief, the fallback synthesizer's channelStrategy
has exactly one entry per element of the brief's channels, and the
channel field of the i-th entry is the i-th channel (same count, same
order). -/
theorem fallback_channelStrategy_mirrors_channels (payload : CampaignBrief) :
    (buildFallbackPlan payload).channelStrategy.length = payload.channels.length ∧
    (buildFallbackPlan payload).channelStrategy.map ChannelPlay.channel = payload.channels := by
  constructor
  · simp [buildFallbackPlan]
  · simp [buildFallbackPlan, Function.comp_def]

/-- Claim C5: for every brief, every channel play's cadence is
"3x weekly" when the timeframe is "2 weeks" and "Weekly" for every
other timeframe value. -/
theorem fallback_cadence_by_timeframe (payload : CampaignBrief) :
    (buildFallbackPlan payload).channelStrategy.map ChannelPlay.cadence =
      payload.channels.map
        (fun _ => if payload.timeframe = "2 weeks" then "3x weekly" else "Weekly") := by
  simp [buildFallbackPlan, Function.comp_def]

/-- Claim C10: the fallback synthesizer's output depends only on
businessName, industry, productDescription, uniqueValue, channels,
offer, budgetLevel and timeframe: two briefs agreeing on those eight
fields (so possibly differing in goals, tone, notes, targetCustomer)
produce identical plans. -/
theorem fallback_ignores_goals_tone_notes_target (b1 b2 : CampaignBrief)
    (h1 : b1.businessName = b2.businessName) (h2 : b1.industry = b2.industry)
    (h3 : b1.productDescription = b2.productDescription)
    (h4 : b1.uniqueValue = b2.uniqueValue) (h5 : b1.channels = b2.channels)
    (h6 : b1.offer = b2.offer) (h7 : b1.budgetLevel = b2.budgetLevel)
    (h8 : b1.timeframe = b2.timeframe) :
    buildFallbackPlan b1 = buildFallbackPlan b2 := by
  simp [buildFallbackPlan, h1, h2, h3, h4, h5, h6, h7, h8]

/-- Witness for claim C10 at two concrete briefs that differ in goals,
target customer and notes. -/
theorem fallback_ignores_goals_tone_notes_target_witness :
    buildFallbackPlan sampleBrief = buildFallbackPlan sampleBriefAlt :=
  fallback_ignores_goals_tone_notes_target sampleBrief sampleBriefAlt
    rfl rfl rfl rfl rfl rfl rfl rfl

/-- Claim C6: the fallback synthesizer is deterministic — as a pure
function of the brief alone, two invocations on the same brief yield
byte-identical serialized plans. -/
theorem fallback_deterministic (b1 b2 : CampaignBrief) (h : b1 = b2) :
    serializePlan (buildFallbackPlan b1) = serializePlan (buildFallbackPlan b2) := by
  rw [h]

/-- Witness for claim C6 at a concrete brief. -/
theorem fallback_deterministic_witness :
    serializePlan (buildFallbackPlan sampleBrief) =
      serializePlan (buildFallbackPlan sampleBrief) :=
  fallback_deterministic sampleBrief sampleBrief rfl

/-! ## Claims about the request handler -/

/-- Claim C2: on a valid brief with no model credential, the handler
responds 200 with the fallback synthesizer's plan, a null raw field and
the warning, and the model call's outcome is never consulted. -/
theorem post_no_key_fallback (raw : Json) (payload : CampaignBrief)
    (llm1 llm2 : Except LlmFailure String)
    (h : leadRequestSafeParse raw = .ok payload) :
    POST (.ok raw) none llm1 =
      .ok ⟨200, .fallbackPayload (buildFallbackPlan payload) none noKeyWarning⟩ ∧
    POST (.ok raw) none llm1 = POST (.ok raw) none llm2 := by
  constructor
  · simp [POST, h, handleValidPayload]
  · simp [POST, h, handleValidPayload]

/-- Witness for claim C2 at a concrete valid request and two distinct
model-call outcomes. -/
theorem post_no_key_fallback_witness :
    POST (.ok sampleRequestJson) none (.ok "junk") =
      .ok ⟨200, .fallbackPayload (buildFallbackPlan sampleBrief) none noKeyWarning⟩ ∧
    POST (.ok sampleRequestJson) none (.ok "junk") =
      POST (.ok sampleRequestJson) none (.error ⟨"boom"⟩) :=
  post_no_key_fallback sampleRequestJson sampleBrief (.ok "junk") (.error ⟨"boom"⟩) (by rfl)

/-- Claim C3: on a valid brief, if the model call raises an exception the
handler responds 200 with the fallback synthesizer's plan, a null raw
field and the warning; the response is a constant in the caught error,
so the error's text never appears in the body. -/
theorem post_model_failure_fallback (raw : Json) (payload : CampaignBrief)
    (key : String) (e : LlmFailure)
    (h : leadRequestSafeParse raw = .ok payload) :
    POST (.ok raw) (some key) (.error e) =
      .ok ⟨200, .fallbackPayload (buildFallbackPlan payload) none modelFailWarning⟩ := by
  simp [POST, h, handleValidPayload]

/-- Witness for claim C3 at a concrete valid request and a concrete
transport error. -/
theorem post_model_failure_fallback_witness :
    POST (.ok sampleRequestJson) (some "sk-test") (.error ⟨"ECONNREFUSED"⟩) =
      .ok ⟨200, .fallbackPayload (buildFallbackPlan sampleBrief) none modelFailWarning⟩ :=
  post_model_failure_fallback sampleRequestJson sampleBrief "sk-test" ⟨"ECONNREFUSED"⟩ (by rfl)

/-- On parse failure the parser surfaces the original text with the
failure notice. -/
theorem tryParsePlan_failure_shape (t : String) (h : (tryParsePlan t).plan = none) :
    tryParsePlan t = ⟨none, some t, some unparseableNotice⟩ := by
  unfold tryParsePlan at h ⊢
  cases h1 : parsePlanString t with
  | some p => simp [h1] at h
  | none =>
    simp only [h1]
    cases h2 : braceSlice t.data with
    | none => simp
    | some sub =>
      simp only [h2]
      cases h3 : parsePlanString (String.mk sub) with
      | some p => simp [h1, h2, h3] at h
      | none => simp

/-- Claim C4: on a valid brief, when the model replies with text the
parser cannot turn into a plan, the handler responds 200 with a null
plan, the parser's surfaced raw text (the original model text) and the
failure notice — no fallback plan is synthesized into the response. -/
theorem post_unparseable_surfaces_raw (raw : Json) (payload : CampaignBrief)
    (key : String) (text : String)
    (hv : leadRequestSafeParse raw = .ok payload)
    (hp : (tryParsePlan text).plan = none) :
    POST (.ok raw) (some key) (.ok text) =
      .ok ⟨200, .modelPayload none (some text) (some unparseableNotice)⟩ := by
  have hshape := tryParsePlan_failure_shape text hp
  simp [POST, hv, handleValidPayload, hshape]

/-- Witness for claim C4 at a concrete valid request and an unparseable
model reply. -/
theorem post_unparseable_surfaces_raw_witness :
    POST (.ok sampleRequestJson) (some "sk-test") (.ok failingModelText) =
      .ok ⟨200, .modelPayload none (some failingModelText) (some unparseableNotice)⟩ :=
  post_unparseable_surfaces_raw sampleRequestJson sampleBrief "sk-test" failingModelText
    (by rfl) (by rfl)

/-- The response shapes of the inbound interface: a 400 with the
validation error body, or a 200 whose body is a fallback payload with a
null raw field or a model payload with a null plan or a null raw field. -/
def specifiedShape (r : HttpResponse) : Prop :=
  match r.body with
  | .invalidInput _ _ => r.status = 400
  | .fallbackPayload _ raw _ => r.status = 200 ∧ raw = none
  | .modelPayload plan raw _ => r.status = 200 ∧ (plan = none ∨ raw = none)

/-- Claim C8 counterexample: on a request whose body is not valid JSON,
the handler does not yield a normal response — the body-read exception
propagates out of `POST`, since the source awaits the JSON body outside
any try block. -/
theorem post_invalid_json_no_response :
    ¬ ∃ r : HttpResponse,
      POST (.error "Unexpected end of JSON input") none (.ok "") = .ok r := by
  intro hex
  obtain ⟨r, hr⟩ := hex
  simp [POST] at hr

/-- Claim C8 (amended): for every request whose body parses as JSON, the
handler terminates without throwing and yields exactly one response from
the specified response shapes. -/
theorem post_total_on_json_bodies (j : Json) (apiKey : Option String)
    (llm : Except LlmFailure String) :
    ∃ resp : HttpResponse, POST (.ok j) apiKey llm = .ok resp ∧ specifiedShape resp := by
  cases hv : leadRequestSafeParse j with
  | error issues =>
    refine ⟨⟨400, .invalidInput invalidInputError (flattenIssues issues)⟩, ?_, ?_⟩
    · simp [POST, hv]
    · simp [specifiedShape]
  | ok payload =>
    refine ⟨handleValidPayload payload apiKey llm, ?_, ?_⟩
    · simp [POST, hv]
    unfold handleValidPayload
    cases apiKey with
    | none => simp [specifiedShape]
    | some k =>
      cases llm with
      | error e => simp [specifiedShape]
      | ok text =>
        cases hp : (tryParsePlan text).plan with
        | none => simp [specifiedShape, hp]
        | some p => simp [specifiedShape, hp]

/-! ## Flattened validation errors -/

/-- Every key of the flattened issue map originates from an issue. -/
theorem flattenIssues_key_from (l : List ZodIssue) :
    ∀ f msgs, (f, msgs) ∈ flattenIssues l → ∃ k, k ∈ l ∧ ZodIssue.field k = f := by
  induction l using flattenIssues.induct with
  | case1 =>
    intro f msgs h
    simp [flattenIssues] at h
  | case2 i rest ih =>
    intro f msgs h
    rw [flattenIssues] at h
    rcases List.mem_cons.mp h with h | h
    · injection h with h1 h2
      exact ⟨i, List.mem_cons_self i rest, h1.symm⟩
    · obtain ⟨k, hk, hkf⟩ := ih f msgs h
      exact ⟨k, List.mem_cons_of_mem i (List.mem_filter.mp hk).1, hkf⟩

/-- The flattened message list of a field is exactly that field's issue
messages, in order. -/
theorem flattenIssues_msgs (l : List ZodIssue) :
    ∀ f msgs, (f, msgs) ∈ flattenIssues l →
      msgs = (l.filter (fun k => k.field = f)).map ZodIssue.message := by
  induction l using flattenIssues.induct with
  | case1 =>
    intro f msgs h
    simp [flattenIssues] at h
  | case2 i rest ih =>
    intro f msgs h
    rw [flattenIssues] at h
    rcases List.mem_cons.mp h with h | h
    · injection h with h1 h2
      subst h1
      rw [h2]
      simp [List.filter_cons]
    · have hf : f ≠ i.field := by
        obtain ⟨k, hk, hkf⟩ := flattenIssues_key_from _ f msgs h
        have h2 := (List.mem_filter.mp hk).2
        simp at h2
        exact fun he => h2 (hkf.trans he)
      have hmsgs := ih f msgs h
      have hif : ¬ i.field = f := fun he => hf he.symm
      have hcons : (i :: rest).filter (fun k => ZodIssue.field k = f) =
          rest.filter (fun k => ZodIssue.field k = f) := by
        simp [List.filter_cons, hif]
      rw [hmsgs, hcons, List.filter_filter]
      congr 1
      apply List.filter_congr
      intro k _
      by_cases hk : k.field = f
      · simp [hk]
        exact fun he => hf he
      · simp [hk]

/-- The flattened issue map has one entry per offending field. -/
theorem flattenIssues_keys_nodup (l : List ZodIssue) :
    ((flattenIssues l).map Prod.fst).Nodup := by
  induction l using flattenIssues.induct with
  | case1 => simp [flattenIssues]
  | case2 i rest ih =>
    rw [flattenIssues]
    simp only [List.map_cons]
    refine List.nodup_cons.mpr ⟨?_, ih⟩
    intro hmem
    obtain ⟨⟨f, msgs⟩, hmem2, hfst⟩ := List.mem_map.mp hmem
    obtain ⟨k, hk, hkf⟩ := flattenIssues_key_from _ f msgs hmem2
    have h2 := (List.mem_filter.mp hk).2
    simp at h2
    exact h2 (hkf.trans hfst)

/-- Every offending field appears in the flattened issue map. -/
theorem flattenIssues_covers (l : List ZodIssue) :
    ∀ i ∈ l, ∃ msgs, (ZodIssue.field i, msgs) ∈ flattenIssues l := by
  induction l using flattenIssues.induct with
  | case1 => simp
  | case2 i rest ih =>
    intro i' hi'
    by_cases hf : i'.field = i.field
    · refine ⟨i.message :: (rest.filter (fun k => k.field = i.field)).map ZodIssue.message, ?_⟩
      rw [flattenIssues, hf]
      exact List.mem_cons_self _ _
    · have hmem : i' ∈ rest := by
        rcases List.mem_cons.mp hi' with h | h
        · exact absurd (by rw [h]) hf
        · exact h
      have hmem2 : i' ∈ rest.filter (fun k => k.field ≠ i.field) :=
        List.mem_filter.mpr ⟨hmem, by simp [hf]⟩
      obtain ⟨msgs, hm⟩ := ih i' hmem2
      refine ⟨msgs, ?_⟩
      rw [flattenIssues]
      exact List.mem_cons_of_mem _ hm

/-- The keys of the single-message error map form a sublist of the
flattened map's keys. -/
theorem firstPerField_keys_sublist (l : List (String × List String)) :
    ((firstPerField l).map Prod.fst).Sublist (l.map Prod.fst) := by
  induction l with
  | nil => simp [firstPerField]
  | cons fm rest ih =>
    cases hm : fm.2 with
    | nil =>
      have : firstPerField (fm :: rest) = firstPerField rest := by
        simp [firstPerField, List.filterMap_cons, hm]
      rw [this, List.map_cons]
      exact ih.cons fm.1
    | cons m ms =>
      have : firstPerField (fm :: rest) = (fm.1, m) :: firstPerField rest := by
        simp [firstPerField, List.filterMap_cons, hm]
      rw [this, List.map_cons, List.map_cons]
      exact ih.cons₂ fm.1

/-- A request body missing businessName but otherwise valid. -/
def invalidRequestJson : Json :=
  .obj
    [ ("industry", .str "B2B SaaS")
    , ("productDescription", .str "A RevOps intelligence platform")
    , ("targetCustomer", .str "Heads of Demand Gen")
    , ("uniqueValue", .str "Real-time attribution")
    , ("goals", .arr [.str "Book discovery calls"])
    , ("channels", .arr [.str "Cold email", .str "Webinars"])
    , ("tone", .str "Data-driven")
    , ("offer", .str "Free audit")
    , ("notes", .str "Partnered with Gong")
    , ("budgetLevel", .str "balanced")
    , ("timeframe", .str "30 days") ]

/-- Claim C7: for every request body that fails validation, the page
component's submit handler returns a structured error map — one entry
per offending field, each offending field present and mapped to the
message of its first violation — as an ordinary value, not an
exception. -/
theorem handleSubmit_first_violation_per_field (form : Json) (issues : List ZodIssue)
    (h : leadRequestSafeParse form = .error issues) :
    ∃ m, handleSubmit form = .validationErrors m ∧
      (m.map Prod.fst).Nodup ∧
      (∀ fm ∈ m,
        ((issues.filter (fun k => ZodIssue.field k = fm.1)).map ZodIssue.message).head? =
          some fm.2) ∧
      (∀ i ∈ issues, ∃ msg, (ZodIssue.field i, msg) ∈ m) := by
  refine ⟨firstPerField (flattenIssues issues), by simp [handleSubmit, h], ?_, ?_, ?_⟩
  · exact List.Nodup.sublist (firstPerField_keys_sublist _) (flattenIssues_keys_nodup issues)
  · intro fm hfm
    obtain ⟨a, ha, hga⟩ := List.mem_filterMap.mp hfm
    cases hm : a.2 with
    | nil =>
      rw [hm] at hga
      cases hga
    | cons m ms =>
      rw [hm] at hga
      injection hga with hga2
      have hmsgs := flattenIssues_msgs issues a.1 a.2 (by rw [Prod.mk.eta]; exact ha)
      rw [← hga2]
      rw [← hmsgs, hm]
      rfl
  · intro i hi
    obtain ⟨msgs, hmem⟩ := flattenIssues_covers issues i hi
    have hmsgs := flattenIssues_msgs issues i.field msgs hmem
    have hne : msgs ≠ [] := by
      rw [hmsgs]
      intro hnil
      rw [List.map_eq_nil_iff] at hnil
      have hmm : i ∈ issues.filter (fun k => ZodIssue.field k = ZodIssue.field i) :=
        List.mem_filter.mpr ⟨hi, by simp⟩
      rw [hnil] at hmm
      cases hmm
    cases hm : msgs with
    | nil => exact absurd hm hne
    | cons m ms =>
      subst hm
      exact ⟨m, List.mem_filterMap.mpr ⟨(i.field, m :: ms), hmem, rfl⟩⟩

/-- Witness for claim C7 at a concrete request missing businessName. -/
theorem handleSubmit_first_violation_witness :
    ∃ m, handleSubmit invalidRequestJson = .validationErrors m ∧
      (m.map Prod.fst).Nodup ∧
      (∀ fm ∈ m,
        (((⟨"businessName", "Required"⟩ : ZodIssue) :: []).filter
            (fun k => ZodIssue.field k = fm.1) |>.map ZodIssue.message).head? =
          some fm.2) ∧
      (∀ i ∈ [(⟨"businessName", "Required"⟩ : ZodIssue)],
        ∃ msg, (ZodIssue.field i, msg) ∈ m) :=
  handleSubmit_first_violation_per_field invalidRequestJson
    [⟨"businessName", "Required"⟩] (by rfl)

/-! ## Round-trip lemmas for the plan parser -/

/-- A string is its character list repackaged. -/
theorem stringMk_data (s : String) : String.mk s.data = s := by
  cases s
  rfl

/-- Hexadecimal digits round-trip. -/
theorem parseHexDigit_hexDigitChar (n : Nat) (h : n < 16) :
    parseHexDigit (hexDigitChar n) = some n := by
  interval_cases n <;> decide

/-- The string-body parser inverts the escaping serializer. -/
theorem parseStrBody_escape : ∀ (cs rest : List Char),
    parseStrBody (cs.flatMap escChar ++ ('"' :: rest)) = some (cs, rest) := by
  intro cs
  induction cs with
  | nil =>
    intro rest
    rw [List.flatMap_nil, List.nil_append, parseStrBody.eq_def]
    simp
  | cons c cs ih =>
    intro rest
    rw [List.flatMap_cons, List.append_assoc]
    by_cases h1 : c = '"'
    · subst h1
      rw [show escChar '"' = ['\\', '"'] from by decide]
      simp only [List.cons_append, List.nil_append]
      rw [parseStrBody.eq_def]
      simp [ih]
    by_cases h2 : c = '\\'
    · subst h2
      rw [show escChar '\\' = ['\\', '\\'] from by decide]
      simp only [List.cons_append, List.nil_append]
      rw [parseStrBody.eq_def]
      simp [ih]
    by_cases h3 : c = Char.ofNat 8
    · subst h3
      rw [show escChar (Char.ofNat 8) = ['\\', 'b'] from by decide]
      simp only [List.cons_append, List.nil_append]
      rw [parseStrBody.eq_def]
      simp [ih]
    by_cases h4 : c = '\t'
    · subst h4
      rw [show escChar '\t' = ['\\', 't'] from by decide]
      simp only [List.cons_append, List.nil_append]
      rw [parseStrBody.eq_def]
      simp [ih]
    by_cases h5 : c = '\n'
    · subst h5
      rw [show escChar '\n' = ['\\', 'n'] from by decide]
      simp only [List.cons_append, List.nil_append]
      rw [parseStrBody.eq_def]
      simp [ih]
    by_cases h6 : c = Char.ofNat 12
    · subst h6
      rw [show escChar (Char.ofNat 12) = ['\\', 'f'] from by decide]
      simp only [List.cons_append, List.nil_append]
      rw [parseStrBody.eq_def]
      simp [ih]
    by_cases h7 : c = '\r'
    · subst h7
      rw [show escChar '\r' = ['\\', 'r'] from by decide]
      simp only [List.cons_append, List.nil_append]
      rw [parseStrBody.eq_def]
      simp [ih]
    by_cases h8 : c.toNat < 32
    · have hesc : escChar c =
          ['\\', 'u', '0', '0', hexDigitChar (c.toNat / 16), hexDigitChar (c.toNat % 16)] := by
        simp [escChar, h1, h2, h3, h4, h5, h6, h7, h8]
      have hd1 : parseHexDigit (hexDigitChar (c.toNat / 16)) = some (c.toNat / 16) :=
        parseHexDigit_hexDigitChar _ (by omega)
      have hd2 : parseHexDigit (hexDigitChar (c.toNat % 16)) = some (c.toNat % 16) :=
        parseHexDigit_hexDigitChar _ (Nat.mod_lt _ (by norm_num))
      have h0 : parseHexDigit '0' = some 0 := by decide
      have hofn : Char.ofNat c.toNat = c := Char.ofNat_toNat c
      rw [hesc]
      simp only [List.cons_append, List.nil_append]
      rw [parseStrBody.eq_def]
      simp [h0, hd1, hd2, ih, hofn]
      have hdm : c.toNat / 16 * 16 + c.toNat % 16 = c.toNat := by omega
      rw [hdm]
      exact ⟨Or.inl (by omega), hofn⟩
    · have hesc : escChar c = [c] := by
        simp [escChar, h1, h2, h3, h4, h5, h6, h7, h8]
      rw [hesc]
      simp only [List.cons_append, List.nil_append]
      rw [parseStrBody.eq_def]
      simp [h1, h2, ih]

/-- The string parser inverts the string serializer. -/
theorem parseJStr_print (s : String) (rest : List Char) :
    parseJStr (printJStr s ++ rest) = some (s, rest) := by
  have h := parseStrBody_escape s.data rest
  simp [printJStr, parseJStr, List.cons_append, List.append_assoc, h, stringMk_data]

/-- Consuming an expected literal prefix succeeds on that prefix. -/
theorem expectL_append (pre rest : List Char) : expectL pre (pre ++ rest) = some rest := by
  induction pre with
  | nil => simp [expectL]
  | cons p ps ih => simp [expectL, ih]

/-- Consuming an expected character succeeds on that character. -/
theorem expectC_cons (c : Char) (rest : List Char) : expectC c (c :: rest) = some rest := by
  simp [expectC]

/-- Consuming a serialized key succeeds after that key. -/
theorem expectKey_print (k : String) (rest : List Char) :
    expectKey k (keyColon k ++ rest) = some rest :=
  expectL_append _ _

/-- Each serialized tail element contributes at least its comma. -/
theorem printElemsTail_length {α : Type} (pr : α → List Char) :
    ∀ xs : List α, xs.length ≤ (printElemsTail pr xs).length := by
  intro xs
  induction xs with
  | nil => simp [printElemsTail]
  | cons y ys ih =>
    simp only [printElemsTail, List.flatMap_cons, List.cons_append, List.length_cons,
      List.length_append]
    simp only [printElemsTail] at ih
    omega

/-- A serialized array is at least as long as its element count. -/
theorem printArr_length {α : Type} (pr : α → List Char) :
    ∀ xs : List α, xs.length ≤ (printArr pr xs).length := by
  intro xs
  cases xs with
  | nil => simp [printArr]
  | cons x xs =>
    have h := printElemsTail_length pr xs
    simp only [printArr, List.length_cons, List.length_append]
    omega

/-- The array-tail parser inverts the tail serializer, given enough fuel
and an element parser that inverts the element serializer. -/
theorem parseArrTail_print {α : Type} (pe : List Char → Option (α × List Char))
    (pr : α → List Char) (hpe : ∀ (x : α) (r : List Char), pe (pr x ++ r) = some (x, r)) :
    ∀ (xs : List α) (fuel : Nat) (rest : List Char), xs.length ≤ fuel →
      parseArrTail pe fuel (printElemsTail pr xs ++ (']' :: rest)) = some (xs, rest) := by
  intro xs
  induction xs with
  | nil =>
    intro fuel rest _
    simp only [printElemsTail, List.flatMap_nil, List.nil_append]
    rw [parseArrTail.eq_def]
    simp
  | cons x xs ih =>
    intro fuel rest h
    cases fuel with
    | zero => simp at h
    | succ f =>
      simp only [printElemsTail, List.flatMap_cons, List.cons_append, List.append_assoc]
      rw [parseArrTail.eq_def]
      have hx := hpe x (printElemsTail pr xs ++ (']' :: rest))
      simp only [printElemsTail] at hx
      have htail := ih f rest (by simpa using h)
      simp only [printElemsTail] at htail
      simp [hx, htail]

/-- The array parser core inverts the array serializer, given enough
fuel, an element parser inverting the element serializer, and elements
whose serialization does not start with a closing bracket. -/
theorem parseArrCore_print {α : Type} (pe : List Char → Option (α × List Char))
    (pr : α → List Char) (hpe : ∀ (x : α) (r : List Char), pe (pr x ++ r) = some (x, r))
    (hne : ∀ x : α, ∃ c cs, pr x = c :: cs ∧ c ≠ ']') :
    ∀ (xs : List α) (fuel : Nat) (rest : List Char), xs.length ≤ fuel + 1 →
      parseArrCore pe fuel (printArr pr xs ++ rest) = some (xs, rest) := by
  intro xs fuel rest h
  cases xs with
  | nil =>
    simp only [printArr, List.cons_append, List.nil_append]
    simp [parseArrCore]
  | cons x xs =>
    obtain ⟨c0, cs0, hpr, hc0⟩ := hne x
    have hx := hpe x (printElemsTail pr xs ++ (']' :: rest))
    have htail := parseArrTail_print pe pr hpe xs fuel rest (by simpa using h)
    simp only [printArr, List.cons_append, List.append_assoc]
    rw [hpr] at hx ⊢
    simp only [List.cons_append] at hx ⊢
    simp [parseArrCore, hc0, hx, htail]

/-- The array parser inverts the array serializer. -/
theorem parseArr_print {α : Type} (pe : List Char → Option (α × List Char))
    (pr : α → List Char) (hpe : ∀ (x : α) (r : List Char), pe (pr x ++ r) = some (x, r))
    (hne : ∀ x : α, ∃ c cs, pr x = c :: cs ∧ c ≠ ']') :
    ∀ (xs : List α) (rest : List Char), parseArr pe (printArr pr xs ++ rest) = some (xs, rest) := by
  intro xs rest
  rw [parseArr]
  apply parseArrCore_print pe pr hpe hne
  have h := printArr_length pr xs
  simp only [List.length_append]
  omega

/-- Serialized string lists do not start with a closing bracket. -/
theorem printJStr_head (s : String) : ∃ c cs, printJStr s = c :: cs ∧ c ≠ ']' :=
  ⟨'"', s.data.flatMap escChar ++ ['"'], rfl, by decide⟩

/-- The string-array parser inverts the string-array serializer. -/
theorem parseStrArr_print (xs : List String) (rest : List Char) :
    parseStrArr (printStrArr xs ++ rest) = some (xs, rest) := by
  rw [parseStrArr, printStrArr]
  exact parseArr_print parseJStr printJStr
    (fun x r => parseJStr_print x r) (fun x => printJStr_head x) xs rest

/-- The character list underlying a packed string. -/
theorem stringData_mk (l : List Char) : (String.mk l).data = l := rfl

/-- The campaign-summary parser inverts its serializer. -/
theorem parseCampaignSummary_print (cs : CampaignSummary) (rest : List Char) :
    parseCampaignSummary (printCampaignSummary cs ++ rest) = some (cs, rest) := by
  simp only [printCampaignSummary, List.cons_append, List.append_assoc, List.singleton_append]
  simp [parseCampaignSummary, expectC_cons, expectKey_print, parseJStr_print, parseStrArr_print]

/-- The ideal-customer-profile parser inverts its serializer. -/
theorem parseIdealCustomerProfile_print (icp : IdealCustomerProfile) (rest : List Char) :
    parseIdealCustomerProfile (printIdealCustomerProfile icp ++ rest) = some (icp, rest) := by
  simp only [printIdealCustomerProfile, List.cons_append, List.append_assoc,
    List.singleton_append]
  simp [parseIdealCustomerProfile, expectC_cons, expectKey_print, parseStrArr_print]

/-- The messaging-pillar parser inverts its serializer. -/
theorem parseMessagingPillar_print (mp : MessagingPillar) (rest : List Char) :
    parseMessagingPillar (printMessagingPillar mp ++ rest) = some (mp, rest) := by
  simp only [printMessagingPillar, List.cons_append, List.append_assoc, List.singleton_append]
  simp [parseMessagingPillar, expectC_cons, expectKey_print, parseJStr_print, parseStrArr_print]

/-- The channel-play parser inverts its serializer. -/
theorem parseChannelPlay_print (cp : ChannelPlay) (rest : List Char) :
    parseChannelPlay (printChannelPlay cp ++ rest) = some (cp, rest) := by
  simp only [printChannelPlay, List.cons_append, List.append_assoc, List.singleton_append]
  simp [parseChannelPlay, expectC_cons, expectKey_print, parseJStr_print]

/-- The automation-flow parser inverts its serializer. -/
theorem parseAutomationFlow_print (af : AutomationFlow) (rest : List Char) :
    parseAutomationFlow (printAutomationFlow af ++ rest) = some (af, rest) := by
  simp only [printAutomationFlow, List.cons_append, List.append_assoc, List.singleton_append]
  simp [parseAutomationFlow, expectC_cons, expectKey_print, parseJStr_print, parseStrArr_print]

/-- The experiment parser inverts its serializer. -/
theorem parseExperiment_print (e : Experiment) (rest : List Char) :
    parseExperiment (printExperiment e ++ rest) = some (e, rest) := by
  simp only [printExperiment, List.cons_append, List.append_assoc, List.singleton_append]
  simp [parseExperiment, expectC_cons, expectKey_print, parseJStr_print]

/-- Serialized messaging pillars do not start with a closing bracket. -/
theorem printMessagingPillar_head (mp : MessagingPillar) :
    ∃ c cs, printMessagingPillar mp = c :: cs ∧ c ≠ ']' :=
  ⟨lbrace, _, rfl, by decide⟩

/-- Serialized channel plays do not start with a closing bracket. -/
theorem printChannelPlay_head (cp : ChannelPlay) :
    ∃ c cs, printChannelPlay cp = c :: cs ∧ c ≠ ']' :=
  ⟨lbrace, _, rfl, by decide⟩

/-- Serialized automation flows do not start with a closing bracket. -/
theorem printAutomationFlow_head (af : AutomationFlow) :
    ∃ c cs, printAutomationFlow af = c :: cs ∧ c ≠ ']' :=
  ⟨lbrace, _, rfl, by decide⟩

/-- Serialized experiments do not start with a closing bracket. -/
theorem printExperiment_head (e : Experiment) :
    ∃ c cs, printExperiment e = c :: cs ∧ c ≠ ']' :=
  ⟨lbrace, _, rfl, by decide⟩

/-- The messaging-pillar array parser inverts its serializer. -/
theorem parseMessagingPillarArr_print (xs : List MessagingPillar) (rest : List Char) :
    parseArr parseMessagingPillar (printArr printMessagingPillar xs ++ rest) = some (xs, rest) :=
  parseArr_print parseMessagingPillar printMessagingPillar
    (fun x r => parseMessagingPillar_print x r) (fun x => printMessagingPillar_head x) xs rest

/-- The channel-play array parser inverts its serializer. -/
theorem parseChannelPlayArr_print (xs : List ChannelPlay) (rest : List Char) :
    parseArr parseChannelPlay (printArr printChannelPlay xs ++ rest) = some (xs, rest) :=
  parseArr_print parseChannelPlay printChannelPlay
    (fun x r => parseChannelPlay_print x r) (fun x => printChannelPlay_head x) xs rest

/-- The automation-flow array parser inverts its serializer. -/
theorem parseAutomationFlowArr_print (xs : List AutomationFlow) (rest : List Char) :
    parseArr parseAutomationFlow (printArr printAutomationFlow xs ++ rest) = some (xs, rest) :=
  parseArr_print parseAutomationFlow printAutomationFlow
    (fun x r => parseAutomationFlow_print x r) (fun x => printAutomationFlow_head x) xs rest

/-- The experiment array parser inverts its serializer. -/
theorem parseExperimentArr_print (xs : List Experiment) (rest : List Char) :
    parseArr parseExperiment (printArr printExperiment xs ++ rest) = some (xs, rest) :=
  parseArr_print parseExperiment printExperiment
    (fun x r => parseExperiment_print x r) (fun x => printExperiment_head x) xs rest

/-- The full plan parser inverts the plan serializer. -/
theorem parsePlanChars_print (p : CampaignPlan) (rest : List Char) :
    parsePlanChars (printPlan p ++ rest) = some (p, rest) := by
  simp only [printPlan, List.cons_append, List.append_assoc, List.singleton_append]
  simp [parsePlanChars, expectC_cons, expectKey_print, parseCampaignSummary_print,
    parseIdealCustomerProfile_print, parseMessagingPillarArr_print, parseChannelPlayArr_print,
    parseAutomationFlowArr_print, parseExperimentArr_print, parseStrArr_print]

/-- Direct structured decode succeeds on the exact serialization. -/
theorem parsePlanString_serialize (p : CampaignPlan) :
    parsePlanString (serializePlan p) = some p := by
  have h := parsePlanChars_print p []
  rw [List.append_nil] at h
  simp [parsePlanString, serializePlan, stringData_mk, h]

/-- Claim C9: applying the plan parser to the exact JSON serialization of
any campaign plan returns that plan directly, with a null raw field and
no recovery message. -/
theorem tryParsePlan_roundtrip (p : CampaignPlan) :
    tryParsePlan (serializePlan p) = ⟨some p, none, none⟩ := by
  simp [tryParsePlan, parsePlanString_serialize]
